import Mathlib

/-!
Verification of the mediafire FUSE client against its specification.

The development shallowly embeds the relevant C sources:

* `src/fuse/operations.c` — the VFS adapter (`mediafirefs_getattr`,
  `mediafirefs_mkdir`, `mediafirefs_open`, `mediafirefs_create`,
  `mediafirefs_read`, `mediafirefs_write`, `mediafirefs_release`).
  These definitions are translated line by line from that file and are
  the authority for the adapter logic.
* `src/mfapi/apicalls/folder_create.c` — `mfconn_api_folder_create`.
* `src/mfapi/file.c` — `file_set_key`, `file_get_key`.

The folder-tree / stringv internals (`hashtbl.c`, `stringv.c`) are not part
of the provided sources; only their callers are.  Those collaborators are
modelled from the specification (each such definition carries a doc comment
starting with `Modelled from the spec:`).

Machine integers: the C code only compares small errno values and byte
counts, so `Int`/`Nat` are used directly; no overflow is reachable in the
modelled paths.  File bytes are modelled as `List Nat`.
-/

/-! ### Errno and mode-bit constants (from `errno.h` / `sys/stat.h`) -/

def eacces : Int := 13

def enoent : Int := 2

def eagain : Int := 11

def ebadf : Int := 9

def S_IFREG : Nat := 0o100000

def S_IFDIR : Nat := 0o040000

/-! ### Association-list helpers (used to model keyed stores) -/

def lookupA {α β : Type} [DecidableEq α] : List (α × β) → α → Option β
  | [], _ => none
  | (k1, v) :: rest, k => if k1 = k then some v else lookupA rest k

def setA {α β : Type} [DecidableEq α] : List (α × β) → α → β → List (α × β)
  | [], k, v => [(k, v)]
  | (k1, v1) :: rest, k, v =>
      if k1 = k then (k1, v) :: rest else (k1, v1) :: setA rest k v

def eraseA {α β : Type} [DecidableEq α] (l : List (α × β)) (k : α) : List (α × β) :=
  l.filter (fun kv => decide (kv.1 ≠ k))

/-! ### String-vector (ordered path multiset)

Modelled from the spec: `StringSet` is an "ordered multiset of path strings
with add/remove/contains" (`stringv.c` is not part of src/).  `stringv_del`
removes one occurrence and reports failure when the entry is absent, matching
the callers' use of its return value in `operations.c`. -/

def stringv_mem (sv : List String) (p : String) : Bool :=
  decide (p ∈ sv)

def stringv_add (sv : List String) (p : String) : List String :=
  sv ++ [p]

def removeFirst : List String → String → List String
  | [], _ => []
  | x :: xs, p => if x = p then xs else x :: removeFirst xs p

def stringv_del (sv : List String) (p : String) : Option (List String) :=
  if p ∈ sv then some (removeFirst sv p) else none

/-! ### Path helpers (C `string.h` / `libgen.h` semantics on slash-separated paths) -/

/-- The trailing-slash strip performed at the top of `mediafirefs_mkdir`:
`if (dirname[strlen(dirname)-1] == '/') dirname[strlen(dirname)-1] = 0`. -/
def rstripSlash (s : String) : String :=
  if s.toList ≠ [] ∧ s.toList.getLast? = some '/' then
    String.mk s.toList.dropLast
  else s

/-- `strrchr(s, ASCII slash)` followed by splitting there: yields
(text before the last slash, text after it), or `none` when the string
contains no slash. -/
def splitLastSlash (s : String) : Option (String × String) :=
  let rev := s.toList.reverse
  let base := rev.takeWhile (fun c => c ≠ '/')
  let rest := rev.dropWhile (fun c => c ≠ '/')
  match rest with
  | [] => none
  | _ :: restTail => some (String.mk restTail.reverse, String.mk base.reverse)

/-- `basename` from `libgen.h`, restricted to the canonical absolute paths
the FUSE host delivers (no trailing slash on file paths). -/
def c_basename (s : String) : String :=
  match splitLastSlash s with
  | none => s
  | some (_, b) => b

/-- `dirname` from `libgen.h`, restricted to canonical absolute paths. -/
def c_dirname (s : String) : String :=
  match splitLastSlash s with
  | none => "."
  | some (d, _) => if d = "" then "/" else d

/-- Joining a directory path with a basename, the inverse of the split. -/
def joinPath (dir name : String) : String :=
  if dir = "/" then "/" ++ name else dir ++ "/" ++ name

/-! ### Core state -/

/-- POSIX open access mode (`O_ACCMODE` component of the open flags). -/
inductive AccMode
  | rdonly
  | wronly
  | rdwr
deriving DecidableEq

/-- `struct mediafirefs_openfile` from `operations.c`. -/
structure OpenFile where
  fd : Nat
  path : String
  is_readonly : Bool
  is_local : Bool
deriving DecidableEq

/-- The fields of `struct stat` that the code fills. -/
structure Stat where
  st_uid : Nat
  st_gid : Nat
  st_mode : Nat
  st_nlink : Nat
  st_size : Nat
  st_atime : Int
  st_mtime : Int
  st_ctime : Int
deriving DecidableEq

/-- Process-wide shared state of the mount.

* `writefiles` / `readonlyfiles` are `ctx->sv_writefiles` and
  `ctx->sv_readonlyfiles` (the open-handle multisets).
* `folders` and `files` model the catalog.  The spec's consistency contract
  (§4.1: every mutation ends with a forced `update`, read-your-writes within
  one mount) lets the model identify the catalog with the remote store; a
  folder's key is its path (an injective renaming of the opaque remote keys).
* `staging` maps live staged file descriptors to their byte content;
  `pathFd` records the staging file backing a path while handles are open.
* `euid`/`egid` are the effective process identity returned by
  `geteuid()`/`getegid()`. -/
structure St where
  writefiles : List String
  readonlyfiles : List String
  folders : List String
  files : List (String × List Nat)
  staging : List (Nat × List Nat)
  pathFd : List (String × Nat)
  nextFd : Nat
  euid : Nat
  egid : Nat
deriving DecidableEq

/-! ### Folder-tree collaborators (not in src/, modelled from the spec) -/

/-- Modelled from the spec: `folder_tree_getattr` (hashtbl.c is not part of
src/).  "Folders report `mode = S_IFDIR | 0755`, files `S_IFREG | 0644`,
`nlink = 1`"; a path that does not resolve yields NOT_FOUND.  The spec leaves
uid/gid/timestamps of catalog entries unspecified; the model takes 0 (the
claims only concern the synthetic fallback branch in `mediafirefs_getattr`). -/
def folder_tree_getattr (st : St) (path : String) : Option Stat :=
  if path ∈ st.folders then
    some { st_uid := 0, st_gid := 0, st_mode := S_IFDIR ||| 0o755,
           st_nlink := 1, st_size := 0, st_atime := 0, st_mtime := 0, st_ctime := 0 }
  else
    match lookupA st.files path with
    | some content =>
        some { st_uid := 0, st_gid := 0, st_mode := S_IFREG ||| 0o644,
               st_nlink := 1, st_size := content.length, st_atime := 0,
               st_mtime := 0, st_ctime := 0 }
    | none => none

/-- Modelled from the spec: `folder_tree_path_get_key` "resolves folder paths
only", NULL on non-resolution.  In this model a folder's key is its path. -/
def folder_tree_path_get_key (st : St) (dir : String) : Option String :=
  if dir ∈ st.folders then some dir else none

/-- Modelled from the spec: `folder_tree_open_file` — "when `may_refresh` is
true AND no handle on `path` exists, the file's current contents are fetched
from the remote via its direct-link and materialized into a staging file;
otherwise the existing staging file is reused", failing with NOT_FOUND when
the path does not resolve (which is also how local-only files stay invisible
to the normal open path: they are not in the catalog). -/
def folder_tree_open_file (st : St) (path : String) (_flags : AccMode)
    (may_refresh : Bool) : Except Int Nat × St :=
  match lookupA st.files path with
  | none => (Except.error (-enoent), st)
  | some content =>
      if may_refresh then
        let fd := st.nextFd
        (Except.ok fd,
         { st with staging := (fd, content) :: st.staging,
                   pathFd := setA st.pathFd path fd,
                   nextFd := fd + 1 })
      else
        match lookupA st.pathFd path with
        | some fd => (Except.ok fd, st)
        | none => (Except.error (-ebadf), st)

/-- Modelled from the spec: `folder_tree_tmp_open` "allocates a fresh empty
staging file and returns a descriptor to it". -/
def folder_tree_tmp_open (st : St) : Nat × St :=
  (st.nextFd,
   { st with staging := (st.nextFd, []) :: st.staging, nextFd := st.nextFd + 1 })

/-- Modelled from the spec: `folder_tree_update` pulls the remote change
journal.  The model identifies the catalog with the remote store (§4.1:
forced update after each mutation, read-your-writes within one mount), so the
update itself is the identity; remote mutations are applied at the call sites
that perform them. -/
def folder_tree_update (st : St) (_force : Bool) : St := st

/-- Modelled from the spec: `folder_tree_upload_patch` "compares the staged
content's hash against the cached remote hash; if identical, is a no-op;
otherwise uploads the staged bytes as a new revision for the file at `path`".
The remote outcome is supplied by the caller's oracle; on success the store
holds the staged bytes (also when they were already identical). -/
def folder_tree_upload_patch (st : St) (path : String) (content : List Nat)
    (remote_ok : Bool) : Int × St :=
  if remote_ok then (0, { st with files := setA st.files path content })
  else (-1, st)

/-- Modelled from the spec: `mfconn_api_upload_simple(parent_key, fd, name)`
uploads the staged bytes as a new file `name` under `parent_key` (account
root when nil) and yields an upload key on success.  The remote outcome is
supplied by the caller's oracle; `remote_ok = false` covers both a nonzero
return value and a NULL upload key. -/
def mfconn_api_upload_simple (st : St) (folder_key : Option String)
    (content : List Nat) (name : String) (remote_ok : Bool) :
    (Int × Option String) × St :=
  if remote_ok then
    let dir := match folder_key with | none => "/" | some d => d
    ((0, some "upload-key"),
     { st with files := setA st.files (joinPath dir name) content })
  else ((-1, none), st)

/-! ### `mfconn_api_folder_create` (from `src/mfapi/apicalls/folder_create.c`) -/

/-- The signed GET request that `mfconn_api_folder_create` builds:
`parent_key` is present in the query string exactly when the (normalized)
parent is non-NULL. -/
structure FolderCreateCall where
  parent_key : Option String
  foldername : String
deriving DecidableEq

/-- The parent normalization inside `mfconn_api_folder_create`:
a non-NULL parent whose length is not 13 and which compares equal to
"myfiles" is replaced by NULL. -/
def normalizeParent : Option String → Option String
  | none => none
  | some p => if p.length ≠ 13 then (if p = "myfiles" then none else some p) else some p

/-- `mfconn_api_folder_create` from `folder_create.c`.  `mfconn` is nullable;
`httpRet` is the result of `http_get_buf` on the constructed request.  The
second component is the request actually issued (`none` on early return). -/
def mfconn_api_folder_create (mfconn : Option Unit) (parent : Option String)
    (name : String) (httpRet : Int) : Int × Option FolderCreateCall :=
  match mfconn with
  | none => (-1, none)
  | some _ =>
      if name.length < 1 then (-1, none)
      else
        let parent2 := normalizeParent parent
        (httpRet, some { parent_key := parent2, foldername := name })

/-! ### `file_set_key` / `file_get_key` (from `src/mfapi/file.c`) -/

/-- `struct _file_s` from `file.c` (the link fields are nullable strings;
`quickkey` is a 18-byte buffer, modelled as the string it holds). -/
structure Mffile where
  quickkey : String
  hash : String
  name : String
  mtime : String
  revision : Nat
  share_link : Option String
  direct_link : Option String
  onetime_link : Option String
deriving DecidableEq

/-- `strncpy(dst, key, sizeof(dst) - 1)` into the zeroed 18-byte `quickkey`
buffer: at most 17 characters of the key are stored. -/
def strncpy17 (k : String) : String :=
  String.mk (k.toList.take 17)

/-- `file_set_key` from `file.c`: rejects a NULL file, a NULL key, and any
key whose length is neither 11 nor 15; otherwise stores the key. -/
def file_set_key (file : Option Mffile) (key : Option String) :
    Int × Option Mffile :=
  match file with
  | none => (-1, none)
  | some f =>
      match key with
      | none => (-1, some f)
      | some k =>
          if k.length ≠ 11 ∧ k.length ≠ 15 then (-1, some f)
          else (0, some { f with quickkey := strncpy17 k })

/-- `file_get_key` from `file.c`: NULL for a NULL file, else the stored key. -/
def file_get_key (file : Option Mffile) : Option String :=
  match file with
  | none => none
  | some f => some f.quickkey

/-! ### VFS adapter (from `src/fuse/operations.c`) -/

/-- `mediafirefs_getattr`: a non-forced `folder_tree_update`, then
`folder_tree_getattr`; when that fails and the path is in `sv_writefiles`,
a synthetic record is filled (uid/gid from `geteuid()`/`getegid()`, zero
times, `S_IFREG | 0666`, one link, size 0) and success is returned. -/
def mediafirefs_getattr (st : St) (path : String) : Except Int Stat :=
  let st := folder_tree_update st false
  match folder_tree_getattr st path with
  | some s => Except.ok s
  | none =>
      if stringv_mem st.writefiles path then
        Except.ok { st_uid := st.euid, st_gid := st.egid,
                    st_mode := S_IFREG ||| 0o666, st_nlink := 1, st_size := 0,
                    st_atime := 0, st_mtime := 0, st_ctime := 0 }
      else Except.error (-enoent)

/-- `mediafirefs_mkdir`: strips a trailing slash, splits at the last slash
(no slash: `-ENOENT`), resolves the parent to a key (empty dirname: NULL,
meaning root), calls `mfconn_api_folder_create` and maps its failure to
`-EAGAIN`; on success forces an update.  The third component is the list of
remote requests issued.  The `mode` argument is explicitly discarded. -/
def mediafirefs_mkdir (st : St) (path : String) (_mode : Nat) (httpRet : Int) :
    Int × St × List FolderCreateCall :=
  let dn := rstripSlash path
  match splitLastSlash dn with
  | none => (-enoent, st, [])
  | some (dir, base) =>
      let key : Option String :=
        if dir = "" then none else folder_tree_path_get_key st dir
      let res := mfconn_api_folder_create (some ()) key base httpRet
      let trace := match res.2 with | none => [] | some c => [c]
      if res.1 ≠ 0 then (-eagain, st, trace)
      else
        let target := joinPath (match key with | none => "/" | some d => d) base
        (0, folder_tree_update { st with folders := st.folders ++ [target] } true,
         trace)

/-- `mediafirefs_open`: rejects a writable open only when the path is already
in `sv_writefiles`; computes `is_open` (path in `sv_readonlyfiles`, or a
read-only request on a path in `sv_writefiles`); calls
`folder_tree_open_file` with `may_refresh = !is_open`; on success registers
the handle in the multiset matching the access mode. -/
def mediafirefs_open (st : St) (path : String) (m : AccMode) :
    Except Int OpenFile × St :=
  if ¬ m = AccMode.rdonly ∧ stringv_mem st.writefiles path = true then
    (Except.error (-eacces), st)
  else
    let is_open : Bool :=
      stringv_mem st.readonlyfiles path ||
        (decide (m = AccMode.rdonly) && stringv_mem st.writefiles path)
    match folder_tree_open_file st path m (!is_open) with
    | (Except.error e, st1) => (Except.error e, st1)
    | (Except.ok fd, st1) =>
        let ofl : OpenFile :=
          { fd := fd, path := path,
            is_readonly := decide (m = AccMode.rdonly), is_local := false }
        if m = AccMode.rdonly then
          (Except.ok ofl,
           { st1 with readonlyfiles := stringv_add st1.readonlyfiles path })
        else
          (Except.ok ofl,
           { st1 with writefiles := stringv_add st1.writefiles path })

/-- `mediafirefs_create`: opens a fresh staging file via
`folder_tree_tmp_open`, builds a local writable handle and adds the path to
`sv_writefiles`.  The `mode` argument is explicitly discarded.  (The C code
maps a negative descriptor to `-EACCES`; the modelled `tmp_open` always
succeeds.) -/
def mediafirefs_create (st : St) (path : String) (_mode : Nat) :
    Except Int OpenFile × St :=
  let res := folder_tree_tmp_open st
  (Except.ok { fd := res.1, path := path, is_readonly := false, is_local := true },
   { res.2 with writefiles := stringv_add res.2.writefiles path })

/-- The content of a staged file after `pwrite(fd, buf, size, off)`:
bytes before the offset (zero-filled if the file was shorter), the written
buffer, then any bytes previously past the written range. -/
def pwriteContent (c : List Nat) (off : Nat) (buf : List Nat) : List Nat :=
  (c.take off ++ List.replicate (off - c.length) 0) ++ buf ++ c.drop (off + buf.length)

/-- `mediafirefs_write`: `pwrite` on the handle's staged descriptor; returns
the byte count (or `-EBADF` on a dead descriptor, as `pwrite` would). -/
def mediafirefs_write (st : St) (ofl : OpenFile) (buf : List Nat) (off : Nat) :
    Int × St :=
  match lookupA st.staging ofl.fd with
  | none => (-ebadf, st)
  | some c =>
      ((buf.length : Int),
       { st with staging := setA st.staging ofl.fd (pwriteContent c off buf) })

/-- `mediafirefs_read`: `pread` on the handle's staged descriptor; yields the
bytes read (`none` on a dead descriptor). -/
def mediafirefs_read (st : St) (ofl : OpenFile) (size off : Nat) :
    Option (List Nat) :=
  (lookupA st.staging ofl.fd).map (fun c => (c.drop off).take size)

/-- Outcome of `mediafirefs_release`: a return value, `exit(1)` on a fatal
multiset inconsistency, or divergence of the upload-poll loop. -/
inductive RelRet
  | ok
  | err (e : Int)
  | fatal
  | hang
deriving DecidableEq

/-- Result of a release: outcome, resulting state, and whether the staged
descriptor was closed and the `openfile` allocation freed. -/
structure RelOut where
  ret : RelRet
  st : St
  fd_closed : Bool
  handle_freed : Bool
deriving DecidableEq

/-- Remote behaviour during one release, as observed through the calls the
code makes: the `upload_simple` outcome, the sequence of
`upload_poll_upload` results (return value, status, fileerror), and the
`upload_patch` outcome. -/
structure RemoteOracle where
  upload_simple_ok : Bool
  polls : List (Int × Int × Int)
  upload_patch_ok : Bool
deriving DecidableEq

/-- The `for(;;)` poll loop in `mediafirefs_release`: a nonzero poll return
value yields `return -1`; status 99 breaks out with success; otherwise the
loop sleeps and polls again — forever, if the remote never terminates. -/
def upload_poll_loop : List (Int × Int × Int) → RelRet
  | [] => RelRet.hang
  | (rv, status, _) :: rest =>
      if rv ≠ 0 then RelRet.err (-1)
      else if status = 99 then RelRet.ok
      else upload_poll_loop rest

/-- `mediafirefs_release` from `operations.c`.

* read-only handle: remove from `sv_readonlyfiles` (absence is fatal), close
  the descriptor, free the handle.
* otherwise: remove from `sv_writefiles` (absence fatal, a remaining
  duplicate fatal); then
  * local handle: split the path, read the staged bytes, resolve the parent
    folder key, `upload_simple` (the `fclose` closes the staged descriptor
    and the handle is freed before the result is checked); failure yields
    `-EACCES`; otherwise the poll loop runs to `99` (success, forced update)
    or a poll error (`return -1`);
  * remote-backed handle: close the descriptor, `upload_patch`; failure
    yields `-EACCES`, success a forced update. -/
def mediafirefs_release (st : St) (ofl : OpenFile) (orc : RemoteOracle) : RelOut :=
  if ofl.is_readonly then
    match stringv_del st.readonlyfiles ofl.path with
    | none => ⟨RelRet.fatal, st, false, false⟩
    | some ro =>
        ⟨RelRet.ok,
         { st with readonlyfiles := ro, staging := eraseA st.staging ofl.fd,
                   pathFd := eraseA st.pathFd ofl.path },
         true, true⟩
  else
    match stringv_del st.writefiles ofl.path with
    | none => ⟨RelRet.fatal, st, false, false⟩
    | some wf =>
        if stringv_mem wf ofl.path then
          ⟨RelRet.fatal, { st with writefiles := wf }, false, false⟩
        else
          let stA := { st with writefiles := wf }
          if ofl.is_local then
            let file_name := c_basename ofl.path
            let dir_name := c_dirname ofl.path
            let content := (lookupA stA.staging ofl.fd).getD []
            let folder_key := folder_tree_path_get_key stA dir_name
            let up := mfconn_api_upload_simple stA folder_key content file_name
                        orc.upload_simple_ok
            let stB := { up.2 with staging := eraseA up.2.staging ofl.fd,
                                   pathFd := eraseA up.2.pathFd ofl.path }
            if up.1.1 ≠ 0 ∨ up.1.2 = none then
              ⟨RelRet.err (-eacces), stB, true, true⟩
            else
              match upload_poll_loop orc.polls with
              | RelRet.ok => ⟨RelRet.ok, folder_tree_update stB true, true, true⟩
              | r => ⟨r, stB, true, true⟩
          else
            let content := (lookupA stA.staging ofl.fd).getD []
            let stB := { stA with staging := eraseA stA.staging ofl.fd,
                                  pathFd := eraseA stA.pathFd ofl.path }
            let patch := folder_tree_upload_patch stB ofl.path content
                           orc.upload_patch_ok
            if patch.1 ≠ 0 then ⟨RelRet.err (-eacces), patch.2, true, true⟩
            else ⟨RelRet.ok, folder_tree_update patch.2 true, true, true⟩

/-! ### Derived notions used by the claims -/

/-- The open-handle census invariant of spec §4.2: at most one writable
handle per path, and read-only and writable handles never coexist. -/
def censusInv (st : St) (p : String) : Prop :=
  st.writefiles.count p ≤ 1 ∧
  (0 < st.writefiles.count p → st.readonlyfiles.count p = 0) ∧
  (0 < st.readonlyfiles.count p → st.writefiles.count p = 0)

instance (st : St) (p : String) : Decidable (censusInv st p) := by
  unfold censusInv; infer_instance

/-- The round trip of spec §8: `create`, `write` of `bytes` at offset 0,
`release` with a successful simple upload whose poll immediately reports
terminal status 99, a fresh read-only `open`, then a `read` of
`bytes.length` at offset 0. -/
def roundtrip (st : St) (p : String) (bytes : List Nat) : Option (List Nat) :=
  match mediafirefs_create st p 0o644 with
  | (Except.error _, _) => none
  | (Except.ok ofc, st1) =>
      let ws := mediafirefs_write st1 ofc bytes 0
      let out := mediafirefs_release ws.2 ofc
                   { upload_simple_ok := true, polls := [(0, 99, 0)],
                     upload_patch_ok := true }
      match out.ret with
      | RelRet.ok =>
          match mediafirefs_open out.st p AccMode.rdonly with
          | (Except.error _, _) => none
          | (Except.ok ofr, st2) => mediafirefs_read st2 ofr bytes.length 0
      | _ => none

deriving instance DecidableEq for Except

/-! ### Concrete states used by counterexamples and witnesses -/

/-- A mount with a single read-only handle open on `/f` (the staged copy sits
on descriptor 0); `/f` exists in the catalog. -/
def stReadonlyOpen : St :=
  { writefiles := [], readonlyfiles := ["/f"], folders := ["/"],
    files := [("/f", [7])], staging := [(0, [7])], pathFd := [("/f", 0)],
    nextFd := 1, euid := 0, egid := 0 }

/-- A mount with a single writable handle open on the remote-backed `/f`. -/
def stWritableOpen : St :=
  { writefiles := ["/f"], readonlyfiles := [], folders := ["/"],
    files := [("/f", [7])], staging := [(0, [7])], pathFd := [("/f", 0)],
    nextFd := 1, euid := 0, egid := 0 }

/-- A mount holding a staged `LOCAL_NEW` create of `/g` (in `sv_writefiles`,
absent from the catalog). -/
def stLocalNew : St :=
  { writefiles := ["/g"], readonlyfiles := [], folders := ["/"], files := [],
    staging := [(0, [])], pathFd := [], nextFd := 1, euid := 1000, egid := 1000 }

/-- A mount holding a writable handle on `/e` whose catalog entry has
disappeared; the staged file still holds three bytes. -/
def stGoneRemote : St :=
  { writefiles := ["/e"], readonlyfiles := [], folders := ["/"], files := [],
    staging := [(2, [9, 9, 9])], pathFd := [("/e", 2)], nextFd := 3,
    euid := 7, egid := 8 }

/-- The `WRITABLE_EXISTING` handle open on `/e` in `stGoneRemote`. -/
def ofGoneRemote : OpenFile :=
  { fd := 2, path := "/e", is_readonly := false, is_local := false }

/-- A mount about to release a staged local create of `/a/b` (descriptor 5,
two staged bytes). -/
def stRelease : St :=
  { writefiles := ["/a/b"], readonlyfiles := [], folders := ["/", "/a"],
    files := [], staging := [(5, [1, 2])], pathFd := [], nextFd := 6,
    euid := 0, egid := 0 }

/-- The `LOCAL_NEW` handle open on `/a/b` in `stRelease`. -/
def ofReleaseLocal : OpenFile :=
  { fd := 5, path := "/a/b", is_readonly := false, is_local := true }

/-- A remote that accepts the simple upload but whose first poll call fails. -/
def orcPollFail : RemoteOracle :=
  { upload_simple_ok := true, polls := [(-1, 0, 0)], upload_patch_ok := true }

/-- An idle mount knowing the folders `/` and `/a`, used for round trips. -/
def stRound : St :=
  { writefiles := [], readonlyfiles := [], folders := ["/", "/a"], files := [],
    staging := [], pathFd := [], nextFd := 3, euid := 1000, egid := 1000 }

/-- An idle mount knowing only the root folder, used for the mkdir claim. -/
def stMkdirRoot : St :=
  { writefiles := [], readonlyfiles := [], folders := ["/"], files := [],
    staging := [], pathFd := [], nextFd := 0, euid := 0, egid := 0 }

/-- A freshly allocated (zeroed) file record. -/
def mfFileA : Mffile :=
  { quickkey := "", hash := "", name := "", mtime := "", revision := 0,
    share_link := none, direct_link := none, onetime_link := none }

/-! ### Helper lemmas -/

theorem stringv_mem_eq_true {sv : List String} {p : String} :
    stringv_mem sv p = true ↔ p ∈ sv := by
  simp [stringv_mem]

theorem stringv_mem_eq_false {sv : List String} {p : String} :
    stringv_mem sv p = false ↔ p ∉ sv := by
  simp [stringv_mem]

theorem removeFirst_append_not_mem {l : List String} {p : String} (h : p ∉ l) :
    removeFirst (l ++ [p]) p = l := by
  induction l with
  | nil => simp [removeFirst]
  | cons x xs ih =>
      simp only [List.mem_cons, not_or] at h
      show removeFirst (x :: (xs ++ [p])) p = x :: xs
      rw [removeFirst, if_neg (Ne.symm h.1), ih h.2]

theorem count_removeFirst_le (l : List String) (p q : String) :
    (removeFirst l q).count p ≤ l.count p := by
  induction l with
  | nil => simp [removeFirst]
  | cons x xs ih =>
      simp only [removeFirst]
      by_cases hx : x = q
      · rw [if_pos hx, List.count_cons]
        exact Nat.le_add_right _ _
      · rw [if_neg hx, List.count_cons, List.count_cons]
        exact Nat.add_le_add_right ih _

theorem count_removeFirst_self {l : List String} {p : String} (h : p ∈ l) :
    (removeFirst l p).count p + 1 = l.count p := by
  induction l with
  | nil => cases h
  | cons x xs ih =>
      simp only [removeFirst]
      by_cases hx : x = p
      · rw [if_pos hx, List.count_cons]
        simp [hx]
      · rw [if_neg hx, List.count_cons, List.count_cons]
        have hmem : p ∈ xs := by
          rcases List.mem_cons.mp h with h1 | h2
          · exact absurd h1.symm hx
          · exact h2
        simp only [beq_iff_eq, if_neg hx]
        rw [← ih hmem]

theorem lookupA_setA {α β : Type} [DecidableEq α] (l : List (α × β)) (k : α) (v : β) :
    lookupA (setA l k v) k = some v := by
  induction l with
  | nil => simp [setA, lookupA]
  | cons kv rest ih =>
      obtain ⟨k1, v1⟩ := kv
      simp only [setA]
      by_cases hk : k1 = k
      · rw [if_pos hk]
        simp [lookupA, hk]
      · rw [if_neg hk]
        simp [lookupA, hk, ih]

theorem lookupA_eraseA {α β : Type} [DecidableEq α] (l : List (α × β)) (k : α) :
    lookupA (eraseA l k) k = none := by
  induction l with
  | nil => rfl
  | cons kv rest ih =>
      obtain ⟨k1, v1⟩ := kv
      by_cases hk : k1 = k
      · simpa [eraseA, List.filter_cons, hk] using ih
      · simpa [eraseA, List.filter_cons, hk, lookupA] using ih

theorem strncpy17_eq {k : String} (h : k.length ≤ 17) : strncpy17 k = k := by
  unfold strncpy17
  simp only [String.toList]
  rw [List.take_of_length_le h]

theorem open_file_writefiles (st : St) (path : String) (m : AccMode) (b : Bool) :
    ((folder_tree_open_file st path m b).2).writefiles = st.writefiles := by
  unfold folder_tree_open_file
  split
  · rfl
  · split
    · rfl
    · split <;> rfl

theorem upload_simple_writefiles (st : St) (k : Option String) (c : List Nat)
    (n : String) (remote_ok : Bool) :
    ((mfconn_api_upload_simple st k c n remote_ok).2).writefiles = st.writefiles := by
  unfold mfconn_api_upload_simple
  split <;> rfl

theorem upload_patch_writefiles (st : St) (p : String) (c : List Nat)
    (remote_ok : Bool) :
    ((folder_tree_upload_patch st p c remote_ok).2).writefiles = st.writefiles := by
  unfold folder_tree_upload_patch
  split <;> rfl

/-! ### Claim C1 -/

/-- C1 counterexample: with a read-only handle open on `/f` (and no writable
handle), a write-only open of `/f` does not return `-EACCES`; it succeeds and
adds `/f` to the writable multiset.  The code only consults `sv_writefiles`
before a writable open, so a read-only handle does not block it. -/
theorem open_write_despite_readonly_handle :
    stReadonlyOpen.readonlyfiles.count "/f" = 1 ∧
    (mediafirefs_open stReadonlyOpen "/f" AccMode.wronly).1 =
      Except.ok { fd := 0, path := "/f", is_readonly := false, is_local := false } ∧
    (mediafirefs_open stReadonlyOpen "/f" AccMode.wronly).2.writefiles = ["/f"] :=
  ⟨by decide, rfl, rfl⟩

/-- C1 (amended): a write-only or read-write open of a path that already has
a WRITABLE handle open returns `-EACCES` and leaves the state (in particular
both open-handle multisets) unchanged. -/
theorem open_write_blocked_by_writable_handle (st : St) (p : String) (m : AccMode)
    (hm : ¬ m = AccMode.rdonly) (hw : stringv_mem st.writefiles p = true) :
    mediafirefs_open st p m = (Except.error (-eacces), st) := by
  unfold mediafirefs_open
  rw [if_pos ⟨hm, hw⟩]

/-- C1 witness: a read-write open of `/f` while a writable handle is open on
it is refused with the state untouched. -/
theorem open_write_blocked_witness :
    mediafirefs_open stWritableOpen "/f" AccMode.rdwr =
      (Except.error (-eacces), stWritableOpen) :=
  open_write_blocked_by_writable_handle stWritableOpen "/f" AccMode.rdwr
    (by decide) (by decide)

/-! ### Claim C3 -/

/-- C3: in a state where the parent directory `/a` does not resolve to a
folder key, `mkdir "/a/b"` does not fail with `-ENOENT`: the NULL key coming
back from `folder_tree_path_get_key` is passed to `mfconn_api_folder_create`
unchecked, so the remote call is issued with no parent key (meaning the
account root), succeeds, and the directory `b` materializes at the root. -/
theorem mkdir_missing_parent_invokes_remote :
    folder_tree_path_get_key stMkdirRoot "/a" = none ∧
    mediafirefs_mkdir stMkdirRoot "/a/b" 0 0 =
      (0, { stMkdirRoot with folders := ["/", "/b"] },
       [{ parent_key := none, foldername := "b" }]) :=
  ⟨rfl, rfl⟩

/-! ### Claim C4 -/

/-- C4 counterexample: the synthetic record that `getattr` fabricates for a
staged create carries mode `S_IFREG | 0666`, not `S_IFREG | 0644` as
claimed. -/
theorem synthetic_getattr_mode_not_0644 :
    mediafirefs_getattr stLocalNew "/g" =
      Except.ok { st_uid := 1000, st_gid := 1000, st_mode := S_IFREG ||| 0o666,
                  st_nlink := 1, st_size := 0, st_atime := 0, st_mtime := 0,
                  st_ctime := 0 } ∧
    ¬ S_IFREG ||| 0o666 = S_IFREG ||| 0o644 :=
  ⟨rfl, by decide⟩

/-- C4 (amended): for a path in the writable multiset whose catalog lookup
fails, `getattr` succeeds with a synthetic record of size 0, one link, mode
`S_IFREG | 0666`, owned by the effective process uid/gid, and zeroed
timestamps. -/
theorem synthetic_getattr_record (st : St) (p : String)
    (hcat : folder_tree_getattr st p = none)
    (hmem : stringv_mem st.writefiles p = true) :
    mediafirefs_getattr st p =
      Except.ok { st_uid := st.euid, st_gid := st.egid,
                  st_mode := S_IFREG ||| 0o666, st_nlink := 1, st_size := 0,
                  st_atime := 0, st_mtime := 0, st_ctime := 0 } := by
  simp [mediafirefs_getattr, folder_tree_update, hcat, hmem]

/-- C4 witness: the staged create of `/g` (absent from the catalog) receives
the synthetic record owned by the effective uid/gid 1000/1000. -/
theorem synthetic_getattr_record_witness :
    mediafirefs_getattr stLocalNew "/g" =
      Except.ok { st_uid := 1000, st_gid := 1000, st_mode := S_IFREG ||| 0o666,
                  st_nlink := 1, st_size := 0, st_atime := 0, st_mtime := 0,
                  st_ctime := 0 } :=
  synthetic_getattr_record stLocalNew "/g" rfl (by decide)

/-! ### Claim C7 -/

/-- C7: `mfconn_api_folder_create` behaves identically when the parent key is
the string "myfiles" and when it is NULL: both designate the account root,
the signed request omits the `parent_key` parameter, and the return value is
the same. -/
theorem folder_create_myfiles_equals_nil (conn : Option Unit) (name : String)
    (httpRet : Int) (hname : 1 ≤ name.length) :
    mfconn_api_folder_create conn (some "myfiles") name httpRet =
      mfconn_api_folder_create conn none name httpRet := by
  have hmy : normalizeParent (some "myfiles") = none := rfl
  have hnil : normalizeParent none = none := rfl
  cases conn with
  | none => rfl
  | some u => simp [mfconn_api_folder_create, hmy, hnil]

/-- C7 witness: creating the folder "docs" under "myfiles" issues the same
request and yields the same result as creating it with a nil parent. -/
theorem folder_create_myfiles_witness :
    mfconn_api_folder_create (some ()) (some "myfiles") "docs" 0 =
      mfconn_api_folder_create (some ()) none "docs" 0 :=
  folder_create_myfiles_equals_nil (some ()) "docs" 0 (by decide)

/-! ### Claim C9 -/

/-- C9: the synthetic getattr fallback fires for every path in the writable
multiset whose catalog lookup fails — also for a `WRITABLE_EXISTING` handle
whose catalog entry has disappeared — and reports size 0 regardless of the
actual staged content. -/
theorem synthetic_getattr_for_writable_existing (st : St) (ofl : OpenFile)
    (content : List Nat)
    (hmem : stringv_mem st.writefiles ofl.path = true)
    (hcat : folder_tree_getattr st ofl.path = none)
    (hlocal : ofl.is_local = false)
    (hstage : lookupA st.staging ofl.fd = some content) :
    mediafirefs_getattr st ofl.path =
      Except.ok { st_uid := st.euid, st_gid := st.egid,
                  st_mode := S_IFREG ||| 0o666, st_nlink := 1, st_size := 0,
                  st_atime := 0, st_mtime := 0, st_ctime := 0 } := by
  simp [mediafirefs_getattr, folder_tree_update, hcat, hmem]

/-- C9 witness: `/e` is held by a `WRITABLE_EXISTING` handle whose catalog
entry is gone and whose staged file holds three bytes; `getattr` still
reports a synthetic zero-size file. -/
theorem synthetic_getattr_writable_existing_witness :
    mediafirefs_getattr stGoneRemote "/e" =
      Except.ok { st_uid := 7, st_gid := 8, st_mode := S_IFREG ||| 0o666,
                  st_nlink := 1, st_size := 0, st_atime := 0, st_mtime := 0,
                  st_ctime := 0 } :=
  synthetic_getattr_for_writable_existing stGoneRemote ofGoneRemote [9, 9, 9]
    (by decide) rfl rfl rfl

/-! ### Claim C10 -/

/-- C10: `mediafirefs_create` and `mediafirefs_mkdir` discard their `mode`
argument: any two mode values produce identical return values, identical
states (handles and multisets), and identical remote requests. -/
theorem create_mkdir_ignore_mode (st : St) (p : String) (m1 m2 : Nat)
    (httpRet : Int) :
    mediafirefs_create st p m1 = mediafirefs_create st p m2 ∧
    mediafirefs_mkdir st p m1 httpRet = mediafirefs_mkdir st p m2 httpRet :=
  ⟨rfl, rfl⟩

/-! ### Claim C8 -/

/-- C8: `file_set_key` returns 0 exactly when the file and key are non-NULL
and the key length is 11 or 15; on success `file_get_key` returns the given
key, and on failure the record is left unchanged. -/
theorem file_set_key_spec (f : Option Mffile) (k : Option String) :
    ((file_set_key f k).1 = 0 ↔
      (∃ mf, f = some mf) ∧ ∃ s, k = some s ∧ (s.length = 11 ∨ s.length = 15)) ∧
    ((file_set_key f k).1 = 0 → file_get_key (file_set_key f k).2 = k) ∧
    ((file_set_key f k).1 ≠ 0 → (file_set_key f k).2 = f) := by
  cases f with
  | none => simp [file_set_key, file_get_key]
  | some mf =>
      cases k with
      | none => simp [file_set_key, file_get_key]
      | some s =>
          by_cases hlen : s.length ≠ 11 ∧ s.length ≠ 15
          · have hns : ¬ (s.length = 11 ∨ s.length = 15) := by tauto
            simp [file_set_key, file_get_key, hlen, hns]
          · have hor : s.length = 11 ∨ s.length = 15 := by tauto
            have hle : s.length ≤ 17 := by rcases hor with h | h <;> omega
            simp [file_set_key, file_get_key, hlen, hor, strncpy17_eq hle]

/-- C8 witness: storing the 11-character key "abcdefghijk" into a fresh
record succeeds and reads back verbatim. -/
theorem file_set_key_spec_witness :
    file_get_key (file_set_key (some mfFileA) (some "abcdefghijk")).2 =
      some "abcdefghijk" :=
  (file_set_key_spec (some mfFileA) (some "abcdefghijk")).2.1 (by decide)

/-! ### Structural lemmas about the writable multiset -/

/-- `mediafirefs_open` either leaves `sv_writefiles` alone or appends the
opened path, and it appends only when the path was not yet present. -/
theorem open_writefiles_cases (st : St) (q : String) (m : AccMode) :
    (mediafirefs_open st q m).2.writefiles = st.writefiles ∨
    ((mediafirefs_open st q m).2.writefiles = st.writefiles ++ [q] ∧
      q ∉ st.writefiles) := by
  simp only [mediafirefs_open]
  split
  · exact Or.inl rfl
  · rename_i hguard
    split
    · rename_i e st1 heq
      left
      have hwf := open_file_writefiles st q m
        (!(stringv_mem st.readonlyfiles q ||
            (decide (m = AccMode.rdonly) && stringv_mem st.writefiles q)))
      rw [heq] at hwf
      exact hwf
    · rename_i fd st1 heq
      have hwf := open_file_writefiles st q m
        (!(stringv_mem st.readonlyfiles q ||
            (decide (m = AccMode.rdonly) && stringv_mem st.writefiles q)))
      rw [heq] at hwf
      split
      · exact Or.inl hwf
      · rename_i hm
        refine Or.inr ⟨by simpa [stringv_add] using hwf, ?_⟩
        intro hq
        exact hguard ⟨hm, stringv_mem_eq_true.mpr hq⟩

/-- `mediafirefs_release` either leaves `sv_writefiles` alone or removes one
occurrence of the released path. -/
theorem release_writefiles_cases (st : St) (ofl : OpenFile) (orc : RemoteOracle) :
    (mediafirefs_release st ofl orc).st.writefiles = st.writefiles ∨
    (mediafirefs_release st ofl orc).st.writefiles =
      removeFirst st.writefiles ofl.path := by
  simp only [mediafirefs_release]
  split
  · split
    · exact Or.inl rfl
    · exact Or.inl rfl
  · split
    · exact Or.inl rfl
    · rename_i wf heq
      have hwf : wf = removeFirst st.writefiles ofl.path := by
        unfold stringv_del at heq
        split at heq
        · exact (Option.some.injEq _ _ ▸ heq).symm
        · cases heq
      split
      · exact Or.inr hwf
      · split
        · split
          · exact Or.inr (by simp [upload_simple_writefiles, hwf])
          · split <;> exact Or.inr (by simp [folder_tree_update, upload_simple_writefiles, hwf])
        · split
          · exact Or.inr (by simp [upload_patch_writefiles, hwf])
          · exact Or.inr (by simp [folder_tree_update, upload_patch_writefiles, hwf])

/-- Appending a path not yet in the list keeps every per-path count at 1 or
below. -/
theorem count_append_fresh {l : List String} {p q : String} (h : l.count p ≤ 1)
    (hq : q ∉ l) : (l ++ [q]).count p ≤ 1 := by
  rw [List.count_append]
  by_cases hpq : q = p
  · subst hpq
    rw [List.count_eq_zero.mpr hq]
    simp [List.count_singleton]
  · have h0 : List.count p [q] = 0 := by simp [List.count_singleton, hpq]
    omega

/-! ### Claim C2 -/

/-- C2 counterexample: `stWritableOpen` (one writable handle on `/f`)
satisfies the census invariant, yet a read-only open of `/f` succeeds — the
code deliberately reuses the staged file — and afterwards both
`readonly_open(/f)` and `writable_open(/f)` are positive, so the invariant is
not preserved by `open`. -/
theorem census_invariant_broken_by_readonly_open :
    censusInv stWritableOpen "/f" ∧
    (mediafirefs_open stWritableOpen "/f" AccMode.rdonly).1 =
      Except.ok { fd := 0, path := "/f", is_readonly := true, is_local := false } ∧
    ¬ censusInv (mediafirefs_open stWritableOpen "/f" AccMode.rdonly).2 "/f" :=
  ⟨by decide, rfl, by decide⟩

/-- C2 (amended): the bound `|writable_open(P)| ≤ 1` holds initially (both
multisets empty) and is preserved by `open` and `release`; `create` preserves
it provided the created path has no open writable handle (which the host
bridge guarantees, since `getattr` succeeds on any path in `writable_open`).
The mutual-exclusion conjuncts are not preserved (see the counterexample). -/
theorem writable_count_at_most_one_preserved (st : St) (p q : String)
    (m : AccMode) (mode : Nat) (ofl : OpenFile) (orc : RemoteOracle)
    (h : st.writefiles.count p ≤ 1) :
    (mediafirefs_open st q m).2.writefiles.count p ≤ 1 ∧
    (stringv_mem st.writefiles q = false →
      (mediafirefs_create st q mode).2.writefiles.count p ≤ 1) ∧
    (mediafirefs_release st ofl orc).st.writefiles.count p ≤ 1 := by
  refine ⟨?_, ?_, ?_⟩
  · rcases open_writefiles_cases st q m with hc | ⟨hc, hq⟩
    · rw [hc]; exact h
    · rw [hc]; exact count_append_fresh h hq
  · intro hqmem
    have hq : q ∉ st.writefiles := stringv_mem_eq_false.mp hqmem
    show (stringv_add (folder_tree_tmp_open st).2.writefiles q).count p ≤ 1
    exact count_append_fresh h hq
  · rcases release_writefiles_cases st ofl orc with hc | hc
    · rw [hc]; exact h
    · rw [hc]; exact le_trans (count_removeFirst_le _ _ _) h

/-- C2 witness: the bound is preserved through a read-only open, a create of
a fresh path, and the failing release of `stRelease`. -/
theorem writable_count_preserved_witness :
    (mediafirefs_open stRelease "/q" AccMode.rdonly).2.writefiles.count "/x" ≤ 1 ∧
    (mediafirefs_create stRelease "/q" 0).2.writefiles.count "/x" ≤ 1 ∧
    (mediafirefs_release stRelease ofReleaseLocal orcPollFail).st.writefiles.count "/x" ≤ 1 :=
  ⟨(writable_count_at_most_one_preserved stRelease "/x" "/q" AccMode.rdonly 0
      ofReleaseLocal orcPollFail (by decide)).1,
   (writable_count_at_most_one_preserved stRelease "/x" "/q" AccMode.rdonly 0
      ofReleaseLocal orcPollFail (by decide)).2.1 (by decide),
   (writable_count_at_most_one_preserved stRelease "/x" "/q" AccMode.rdonly 0
      ofReleaseLocal orcPollFail (by decide)).2.2⟩

/-! ### Claim C5 -/

/-- C5 counterexample: releasing a staged local create whose simple upload is
accepted but whose first poll call fails returns `-1` (EPERM as seen by the
host), not `-EACCES` as the claim states for every upload failure. -/
theorem release_poll_failure_returns_minus_one :
    (mediafirefs_release stRelease ofReleaseLocal orcPollFail).ret =
      RelRet.err (-1) ∧
    ¬ RelRet.err (-1) = RelRet.err (-eacces) :=
  ⟨rfl, by decide⟩

/-- C5 (amended): releasing a non-readonly handle whose path is held exactly
once removes the entry from the writable multiset exactly once, closes the
staged descriptor and frees the handle state on every path; the return value
is `-EACCES` when `upload_simple` or `upload_patch` fails, but `-1` when an
`upload_poll` call fails. -/
theorem release_failure_cleanup (st : St) (ofl : OpenFile) (orc : RemoteOracle)
    (hro : ofl.is_readonly = false)
    (hcount : st.writefiles.count ofl.path = 1) :
    (mediafirefs_release st ofl orc).st.writefiles.count ofl.path = 0 ∧
    (mediafirefs_release st ofl orc).fd_closed = true ∧
    (mediafirefs_release st ofl orc).handle_freed = true ∧
    lookupA (mediafirefs_release st ofl orc).st.staging ofl.fd = none ∧
    (ofl.is_local = true → orc.upload_simple_ok = false →
      (mediafirefs_release st ofl orc).ret = RelRet.err (-eacces)) ∧
    (ofl.is_local = true → orc.upload_simple_ok = true →
      upload_poll_loop orc.polls = RelRet.err (-1) →
      (mediafirefs_release st ofl orc).ret = RelRet.err (-1)) ∧
    (ofl.is_local = false → orc.upload_patch_ok = false →
      (mediafirefs_release st ofl orc).ret = RelRet.err (-eacces)) := by
  have hmem : ofl.path ∈ st.writefiles := by
    rw [← List.count_pos_iff (a := ofl.path)]
    omega
  have hdel : stringv_del st.writefiles ofl.path =
      some (removeFirst st.writefiles ofl.path) := by
    unfold stringv_del
    rw [if_pos hmem]
  have hzero : (removeFirst st.writefiles ofl.path).count ofl.path = 0 := by
    have := count_removeFirst_self hmem
    omega
  have hmemf : stringv_mem (removeFirst st.writefiles ofl.path) ofl.path = false :=
    stringv_mem_eq_false.mpr (List.count_eq_zero.mp hzero)
  simp only [mediafirefs_release, hro, Bool.false_eq_true, if_false, hdel,
    hmemf, folder_tree_update]
  cases hl : ofl.is_local with
  | false =>
      simp only [Bool.false_eq_true, if_false]
      cases hpatch : orc.upload_patch_ok with
      | false =>
          simp [folder_tree_upload_patch, hzero, lookupA_eraseA]
      | true =>
          simp [folder_tree_upload_patch, hzero, lookupA_eraseA]
  | true =>
      simp only [if_true]
      cases hok : orc.upload_simple_ok with
      | false =>
          simp [mfconn_api_upload_simple, hzero, lookupA_eraseA]
      | true =>
          simp only [mfconn_api_upload_simple, if_true]
          cases hpoll : upload_poll_loop orc.polls with
          | ok => simp [hzero, lookupA_eraseA]
          | err e =>
              simp [hzero, lookupA_eraseA]
          | fatal => simp [hzero, lookupA_eraseA]
          | hang => simp [hzero, lookupA_eraseA]

/-- C5 witness: the poll-failure release of `/a/b` leaves no writable entry
behind and reports `-1`. -/
theorem release_failure_cleanup_witness :
    (mediafirefs_release stRelease ofReleaseLocal orcPollFail).st.writefiles.count "/a/b" = 0 ∧
    (mediafirefs_release stRelease ofReleaseLocal orcPollFail).ret = RelRet.err (-1) :=
  ⟨(release_failure_cleanup stRelease ofReleaseLocal orcPollFail rfl (by decide)).1,
   (release_failure_cleanup stRelease ofReleaseLocal orcPollFail rfl
      (by decide)).2.2.2.2.2.1 rfl rfl rfl⟩

/-! ### Claim C6 -/

/-- C6: for a path whose parent resolves and which has no open handle, the
sequence create, write of `bytes` at offset 0, release (simple upload
accepted, first poll reporting terminal status 99), fresh read-only open,
then a read of `bytes.length` at offset 0 yields exactly `bytes`. -/
theorem create_write_release_read_roundtrip (st : St) (p : String)
    (bytes : List Nat)
    (hdir : c_dirname p ∈ st.folders)
    (hjoin : joinPath (c_dirname p) (c_basename p) = p)
    (hw : p ∉ st.writefiles)
    (hr : p ∉ st.readonlyfiles) :
    roundtrip st p bytes = some bytes := by
  have hw' : stringv_mem st.writefiles p = false := stringv_mem_eq_false.mpr hw
  have hr' : stringv_mem st.readonlyfiles p = false := stringv_mem_eq_false.mpr hr
  have hmem : p ∈ st.writefiles ++ [p] :=
    List.mem_append_right _ (List.mem_singleton.mpr rfl)
  have hrm : removeFirst (st.writefiles ++ [p]) p = st.writefiles :=
    removeFirst_append_not_mem hw
  have hdel2 : stringv_del (st.writefiles ++ [p]) p = some st.writefiles := by
    unfold stringv_del
    rw [if_pos hmem, hrm]
  have e1 : mediafirefs_create st p 0o644 =
      (Except.ok { fd := st.nextFd, path := p, is_readonly := false,
                   is_local := true },
       { st with writefiles := st.writefiles ++ [p],
                 staging := (st.nextFd, []) :: st.staging,
                 nextFd := st.nextFd + 1 }) := rfl
  have e2 : mediafirefs_write
      { st with writefiles := st.writefiles ++ [p],
                staging := (st.nextFd, []) :: st.staging,
                nextFd := st.nextFd + 1 }
      { fd := st.nextFd, path := p, is_readonly := false, is_local := true }
      bytes 0 =
      ((bytes.length : Int),
       { st with writefiles := st.writefiles ++ [p],
                 staging := (st.nextFd, bytes) :: st.staging,
                 nextFd := st.nextFd + 1 }) := by
    simp [mediafirefs_write, lookupA, setA, pwriteContent]
  have e3 : mediafirefs_release
      { st with writefiles := st.writefiles ++ [p],
                staging := (st.nextFd, bytes) :: st.staging,
                nextFd := st.nextFd + 1 }
      { fd := st.nextFd, path := p, is_readonly := false, is_local := true }
      { upload_simple_ok := true, polls := [(0, 99, 0)], upload_patch_ok := true } =
      ⟨RelRet.ok,
       { st with files := setA st.files p bytes,
                 staging := eraseA ((st.nextFd, bytes) :: st.staging) st.nextFd,
                 pathFd := eraseA st.pathFd p,
                 nextFd := st.nextFd + 1 },
       true, true⟩ := by
    simp [mediafirefs_release, hdel2, hw', folder_tree_path_get_key, hdir,
      mfconn_api_upload_simple, hjoin, upload_poll_loop, folder_tree_update,
      lookupA]
  have e4 : mediafirefs_open
      { st with files := setA st.files p bytes,
                staging := eraseA ((st.nextFd, bytes) :: st.staging) st.nextFd,
                pathFd := eraseA st.pathFd p,
                nextFd := st.nextFd + 1 }
      p AccMode.rdonly =
      (Except.ok { fd := st.nextFd + 1, path := p, is_readonly := true,
                   is_local := false },
       { st with readonlyfiles := st.readonlyfiles ++ [p],
                 files := setA st.files p bytes,
                 staging := (st.nextFd + 1, bytes) ::
                   eraseA ((st.nextFd, bytes) :: st.staging) st.nextFd,
                 pathFd := setA (eraseA st.pathFd p) p (st.nextFd + 1),
                 nextFd := st.nextFd + 2 }) := by
    simp [mediafirefs_open, hw', hr', folder_tree_open_file, lookupA_setA,
      stringv_add]
  have e5 : mediafirefs_read
      { st with readonlyfiles := st.readonlyfiles ++ [p],
                files := setA st.files p bytes,
                staging := (st.nextFd + 1, bytes) ::
                  eraseA ((st.nextFd, bytes) :: st.staging) st.nextFd,
                pathFd := setA (eraseA st.pathFd p) p (st.nextFd + 1),
                nextFd := st.nextFd + 2 }
      { fd := st.nextFd + 1, path := p, is_readonly := true, is_local := false }
      bytes.length 0 = some bytes := by
    simp [mediafirefs_read, lookupA]
  unfold roundtrip
  rw [e1]
  simp only [e2, e3, e4, e5]

/-- C6 witness: creating `/a/b` with bytes `[104, 105]`, releasing it through
a successful upload, re-opening it read-only and reading two bytes at offset
0 returns `[104, 105]`. -/
theorem create_write_release_read_roundtrip_witness :
    roundtrip stRound "/a/b" [104, 105] = some [104, 105] :=
  create_write_release_read_roundtrip stRound "/a/b" [104, 105]
    (by decide) (by decide) (by decide) (by decide)
